import Mathlib

/-!
Verification development for the document-analysis repository
(src/main.py, src/main2.py): a shallow embedding of the structure-inference
pipeline (`analyze_document_structure` in main.py, `identify_structure` in
main2.py) and of the section-ranking pipeline (the inline ranking code of the
Persona tabs), together with theorems settling the specification claims.

Texts are modelled as `List Char` (Python `str` restricted to the code-point
fragment the heuristics inspect); font sizes, modelled exactly, as `ℚ`.
Python's anchored `re.match` patterns are embedded as deterministic
first-match parsers; each is documented with the regex it embeds.  All
patterns used by the source are backtracking-free in the sense that the
greedy-munch parser below accepts exactly the strings the regex accepts
(each quantified class is disjoint from the character that must follow it).
-/

/- Batteries marks the rational-number operations irreducible; they are
unsealed so that concrete runs of the pipeline reduce. -/
unseal Rat.add Rat.mul Rat.inv Rat.sub Rat.ofScientific

/-- Python whitespace for `\s`, `str.split`, `str.strip`:
space, tab, newline, carriage return, vertical tab, form feed. -/
def wsChar (c : Char) : Bool :=
  c == ' ' || c == '\t' || c == '\n' || c == '\r' || c == '\x0b' || c == '\x0c'

/-- Python `str.strip()`. -/
def stripWs (cs : List Char) : List Char :=
  ((cs.dropWhile wsChar).reverse.dropWhile wsChar).reverse

/-- Helper for `re.sub(r'\s+', ' ', s)`: collapse whitespace runs to a single
space; the flag records whether the previous character was whitespace. -/
def collapseWs : List Char → Bool → List Char
  | [], _ => []
  | c :: cs, prev =>
    if wsChar c then
      if prev then collapseWs cs true else ' ' :: collapseWs cs true
    else c :: collapseWs cs false

/-- `clean_text` in main.py / `clean_heading_text` in main2.py:
`re.sub(r'\s+', ' ', text.strip())`. -/
def cleanText (cs : List Char) : List Char := collapseWs (stripWs cs) false

/-- Python `str.lower()` (ASCII fragment). -/
def lowerStr (cs : List Char) : List Char := cs.map Char.toLower

/-- Helper for Python `str.split()`: accumulates the current word (reversed). -/
def wordsAux : List Char → List Char → List (List Char)
  | [], acc => if acc.isEmpty then [] else [acc.reverse]
  | c :: cs, acc =>
    if wsChar c then
      if acc.isEmpty then wordsAux cs [] else acc.reverse :: wordsAux cs []
    else wordsAux cs (c :: acc)

/-- Python `str.split()` with no argument: split on whitespace runs,
dropping empty pieces. -/
def wordsOf (cs : List Char) : List (List Char) := wordsAux cs []

/-- `len(text.split())`. -/
def wordCount (cs : List Char) : ℕ := (wordsOf cs).length

/-- `a` is a prefix of `b` (Python `str.startswith`). -/
def isPref : List Char → List Char → Bool
  | [], _ => true
  | _ :: _, [] => false
  | a :: as, b :: bs => a == b && isPref as bs

/-- Python `needle in hay` substring test. -/
def hasSub (n : List Char) : List Char → Bool
  | [] => n.isEmpty
  | c :: t => isPref n (c :: t) || hasSub n t

/-- Python string `<`: lexicographic comparison by code point. -/
def lexLt : List Char → List Char → Bool
  | [], [] => false
  | [], _ :: _ => true
  | _ :: _, [] => false
  | a :: as, b :: bs => if a < b then true else if a = b then lexLt as bs else false

/-! ### Deterministic parsers for the source's `re.match` patterns -/

/-- Consume `\d+` (greedy; every pattern follows it with a non-digit). -/
def pDigits1 : List Char → Option (List Char)
  | [] => none
  | c :: cs => if c.isDigit then some (cs.dropWhile Char.isDigit) else none

/-- Consume `\.?`. -/
def pOptDot : List Char → List Char
  | [] => []
  | c :: cs => if c = '.' then cs else c :: cs

/-- Consume `:?`. -/
def pOptColon : List Char → List Char
  | ':' :: cs => cs
  | cs => cs

/-- Consume `\s+` (greedy; every pattern follows it with a non-space). -/
def pWs1 : List Char → Option (List Char)
  | [] => none
  | c :: cs => if wsChar c then some (cs.dropWhile wsChar) else none

/-- Consume a literal string. -/
def pLit : List Char → List Char → Option (List Char)
  | [], cs => some cs
  | _ :: _, [] => none
  | l :: ls, c :: cs => if c == l then pLit ls cs else none

/-- `[A-Z]` at the head. -/
def headUpper : List Char → Bool
  | c :: _ => c.isUpper
  | [] => false

/-- The suffix `\s+[A-Z]` shared by several patterns. -/
def wsThenCap (cs : List Char) : Bool :=
  match pWs1 cs with
  | none => false
  | some r => headUpper r

/-- `re.match(r'^\d+\.?\s+[A-Z]', t)`. -/
def reNumCap (cs : List Char) : Bool :=
  match pDigits1 cs with
  | none => false
  | some r => wsThenCap (pOptDot r)

/-- `re.match(r'^\d+\.\d+\.?\s+[A-Z]', t)`. -/
def reNum2Cap (cs : List Char) : Bool :=
  match pDigits1 cs with
  | some ('.' :: r) =>
    match pDigits1 r with
    | some r2 => wsThenCap (pOptDot r2)
    | none => false
  | _ => false

/-- `re.match(r'^\d+\.\d+\.\d+\.?\s+[A-Z]', t)`. -/
def reNum3Cap (cs : List Char) : Bool :=
  match pDigits1 cs with
  | some ('.' :: r) =>
    match pDigits1 r with
    | some ('.' :: r2) =>
      match pDigits1 r2 with
      | some r3 => wsThenCap (pOptDot r3)
      | none => false
    | _ => false
  | _ => false

/-- `re.match(r'^\d+\.\d+\.\d+\.\d+\.?\s+[A-Z]', t)`. -/
def reNum4Cap (cs : List Char) : Bool :=
  match pDigits1 cs with
  | some ('.' :: r) =>
    match pDigits1 r with
    | some ('.' :: r2) =>
      match pDigits1 r2 with
      | some ('.' :: r3) =>
        match pDigits1 r3 with
        | some r4 => wsThenCap (pOptDot r4)
        | none => false
      | _ => false
    | _ => false
  | _ => false

/-- `re.match(r'^\d+\.\d+\.?\s+', t)` (level pattern, no capital required). -/
def reNum2Ws (cs : List Char) : Bool :=
  match pDigits1 cs with
  | some ('.' :: r) =>
    match pDigits1 r with
    | some r2 => (pWs1 (pOptDot r2)).isSome
    | none => false
  | _ => false

/-- `re.match(r'^\d+\.\d+\.\d+\.?\s+', t)`. -/
def reNum3Ws (cs : List Char) : Bool :=
  match pDigits1 cs with
  | some ('.' :: r) =>
    match pDigits1 r with
    | some ('.' :: r2) =>
      match pDigits1 r2 with
      | some r3 => (pWs1 (pOptDot r3)).isSome
      | none => false
    | _ => false
  | _ => false

/-- `re.match(r'^\d+\.\d+\.\d+\.\d+\.?\s+', t)`. -/
def reNum4Ws (cs : List Char) : Bool :=
  match pDigits1 cs with
  | some ('.' :: r) =>
    match pDigits1 r with
    | some ('.' :: r2) =>
      match pDigits1 r2 with
      | some ('.' :: r3) =>
        match pDigits1 r3 with
        | some r4 => (pWs1 (pOptDot r4)).isSome
        | none => false
      | _ => false
    | _ => false
  | _ => false

/-- `re.match(r'^\d+\.\s+[A-Z]', t)` (the "bare numbered item" pattern:
mandatory dot). -/
def reNumDotCap (cs : List Char) : Bool :=
  match pDigits1 cs with
  | some (c :: r) => c == '.' && wsThenCap r
  | _ => false

/-- `re.match(r'^\d+\.?\s', t)` (title rejection pattern). -/
def reNumDotWs (cs : List Char) : Bool :=
  match pDigits1 cs with
  | some r =>
    match pOptDot r with
    | c :: _ => wsChar c
    | [] => false
  | none => false

/-- Iterate `(\s+[A-Z&][a-z]*)*` greedily; fuel bounds the recursion
(each iteration consumes at least two characters). -/
def tcIter : ℕ → List Char → List Char
  | 0, cs => cs
  | fuel + 1, cs =>
    match cs with
    | c :: rest =>
      if wsChar c then
        match rest.dropWhile wsChar with
        | d :: r =>
          if d.isUpper || d == '&' then tcIter fuel (r.dropWhile Char.isLower)
          else cs
        | [] => cs
      else cs
    | [] => cs

/-- `re.match(r'^[A-Z][a-z]+(\s+[A-Z&][a-z]*)*:?\s*$', t)` (Title-Case
phrase). -/
def reTitleCase (cs : List Char) : Bool :=
  match cs with
  | c :: rest =>
    c.isUpper &&
    (match rest with | d :: _ => d.isLower | [] => false) &&
    ((pOptColon (tcIter cs.length (rest.dropWhile Char.isLower))).all wsChar)
  | [] => false

/-- Character class `[A-Z\s&]`. -/
def capClass (c : Char) : Bool := c.isUpper || wsChar c || c == '&'

/-- `re.match(r'^[A-Z][A-Z\s&]+:?\s*$', t)` (ALL-CAPS phrase). -/
def reAllCaps : List Char → Bool
  | c :: d :: rest =>
    c.isUpper && capClass d && ((pOptColon (rest.dropWhile capClass)).all wsChar)
  | _ => false

/-- `re.match(r'^Appendix\s+[A-Z]', t)`. -/
def reAppendix (cs : List Char) : Bool :=
  match pLit "Appendix".data cs with
  | some r =>
    match pWs1 r with
    | some r2 => headUpper r2
    | none => false
  | none => false

/-- `re.match(r'^Appendix\s+[A-Z]:', t)` (level pattern). -/
def reAppendixColon (cs : List Char) : Bool :=
  match pLit "Appendix".data cs with
  | some r =>
    match pWs1 r with
    | some (d :: e :: _) => d.isUpper && e == ':'
    | _ => false
  | none => false

/-- Roman-numeral character class `[IVX]`. -/
def isRoman (c : Char) : Bool := c == 'I' || c == 'V' || c == 'X'

/-- `re.match(r'^Phase\s+[IVX]', t)`. -/
def rePhase (cs : List Char) : Bool :=
  match pLit "Phase".data cs with
  | some r =>
    match pWs1 r with
    | some (d :: _) => isRoman d
    | _ => false
  | none => false

/-- `re.match(r'^Phase\s+[IVX]+:', t)` (level pattern). -/
def rePhaseColon (cs : List Char) : Bool :=
  match pLit "Phase".data cs with
  | some r =>
    match pWs1 r with
    | some (d :: r2) =>
      isRoman d &&
      (match r2.dropWhile isRoman with
       | ':' :: _ => true
       | _ => false)
    | _ => false
  | none => false

/-- `re.match(r'^For\s+(each|the)\s+[A-Z]', t)`. -/
def reForEach (cs : List Char) : Bool :=
  match pLit "For".data cs with
  | some r =>
    match pWs1 r with
    | some r2 =>
      (match pLit "each".data r2 with
       | some r3 => wsThenCap r3
       | none => false) ||
      (match pLit "the".data r2 with
       | some r3 => wsThenCap r3
       | none => false)
    | none => false
  | none => false

/-- `re.match(r'^\d+$', t)`: pure digits. -/
def allDigits1 (cs : List Char) : Bool := !cs.isEmpty && cs.all Char.isDigit

/-- `re.match(r'^page\s+\d+', t)` (and the `figure`/`table` variants). -/
def reWordNum (word : List Char) (cs : List Char) : Bool :=
  match pLit word cs with
  | some r =>
    match pWs1 r with
    | some (c :: _) => c.isDigit
    | _ => false
  | none => false

/-- Character class `\w` (ASCII fragment). -/
def wordChar (c : Char) : Bool := c.isAlphanum || c == '_'

/-- `re.match(r'^\w{1,2}$', t)`: a 1-2 character word-char token. -/
def reShortTok : List Char → Bool
  | [a] => wordChar a
  | [a, b] => wordChar a && wordChar b
  | _ => false

/-- `re.match(r'^[^\w\s]+$', t)`: pure punctuation. -/
def rePunct (cs : List Char) : Bool :=
  !cs.isEmpty && cs.all (fun c => !wordChar c && !wsChar c)

/-- `re.match(r'^\d{4}$', t)`: a bare 4-digit year. -/
def reYear : List Char → Bool
  | [a, b, c, d] => a.isDigit && b.isDigit && c.isDigit && d.isDigit
  | _ => false

/-- `re.match(r'@', t)`: matches only when the text starts with `@`
(`re.match` anchors at the beginning). -/
def reAtStart : List Char → Bool
  | '@' :: _ => true
  | _ => false

/-- `text.endswith(':')`. -/
def endsWithColon (cs : List Char) : Bool :=
  match cs.getLast? with
  | some ':' => true
  | _ => false

/-! ### Data model -/

/-- A styled text fragment as produced by `extract_text_from_pdf` /
`get_pdf_content` (the fields the analysis reads: `text`, `size`, `flags`,
`page`; `font` and `bbox` are never consulted). -/
structure Fragment where
  text : List Char
  size : ℚ
  flags : ℕ
  page : ℕ
deriving DecidableEq

/-- An entry of `possible_titles` / `title_candidates`. -/
structure TitleCand where
  text : List Char
  size : ℚ
  page : ℕ
deriving DecidableEq

/-- Heading levels. -/
inductive HLevel
  | H1
  | H2
  | H3
  | H4
deriving DecidableEq

/-- An entry of `potential_headings` / `heading_candidates`
(dict with keys `text`, `level`, `page`, `size`). -/
structure PotHeading where
  text : List Char
  level : HLevel
  page : ℕ
  size : ℚ
deriving DecidableEq

/-- An entry of the returned outline (dict with keys `level`, `text`,
`page`). -/
structure OutHeading where
  level : HLevel
  text : List Char
  page : ℕ
deriving DecidableEq

/-! ### Generic list operations mirroring Python built-ins -/

/-- One insertion step of a stable insertion sort: `lt a b` means `a` must
come strictly before `b`; an incoming element is placed after all existing
elements not strictly after it, matching the stability of Python's sort. -/
def insertByLt (lt : α → α → Bool) (x : α) : List α → List α
  | [] => [x]
  | y :: ys => if lt y x then y :: insertByLt lt x ys else x :: y :: ys

/-- Stable sort by a strict comparator (Python `list.sort(key=...)`). -/
def sortByLt (lt : α → α → Bool) : List α → List α
  | [] => []
  | x :: xs => insertByLt lt x (sortByLt lt xs)

/-- Python `max(lst, key=k)` on a non-empty list: first element attaining
the maximal key (replace only on strictly greater key). -/
def pyMaxBy (key : α → ℚ) (best : α) : List α → α
  | [] => best
  | x :: xs => if key best < key x then pyMaxBy key x xs else pyMaxBy key best xs

/-! ### main.py — analyze_document_structure -/

/-- `all_sizes = [item["size"] for item in text_elements]`. -/
def fragSizes (es : List Fragment) : List ℚ := es.map (·.size)

/-- `average_size = sum(all_sizes) / len(all_sizes)` (only consulted on
non-empty input; the function short-circuits on `[]` before computing it). -/
def avgSize (es : List Fragment) : ℚ :=
  (fragSizes es).sum / ((fragSizes es).length : ℚ)

/-- `max(all_sizes)` (non-empty in every use). -/
def maxSize (es : List Fragment) : ℚ :=
  match fragSizes es with
  | [] => 0
  | s :: r => r.foldl max s

/-- `unique_font_sizes = sorted(set(all_sizes), reverse=True)`: the distinct
sizes in descending order. -/
def uniqSizes (es : List Fragment) : List ℚ :=
  sortByLt (fun a b => decide (b < a)) (fragSizes es).dedup

/-- `could_be_title` in main.py (identical to `is_title_candidate` in
main2.py): page at most 2, size at least 0.9 of the document maximum, 3-25
words, no leading-number pattern, no `page`/`chapter` start.  It receives
the raw fragment text; `max(all_sizes)` is passed as `maxSz`.  The unused
`flags_value` parameter of the Python function is omitted. -/
def could_be_title (maxSz : ℚ) (text : List Char) (size : ℚ) (page : ℕ) : Bool :=
  if page > 2 then false
  else if size < maxSz * 0.9 then false
  else if wordCount text < 3 || wordCount text > 25 then false
  else if reNumDotWs text then false
  else if isPref "page".data (lowerStr text) || isPref "chapter".data (lowerStr text) then false
  else true

/-- The `non_heading_patterns` disjunction of `looks_like_heading`, applied
to the lowercased normalized text, in source order. -/
def nonHeadingAny (lcs : List Char) : Bool :=
  allDigits1 lcs || reWordNum "page".data lcs || reWordNum "figure".data lcs ||
  reWordNum "table".data lcs || reShortTok lcs || rePunct lcs ||
  reYear lcs || isPref "www.".data lcs || reAtStart lcs

/-- The `heading_patterns` disjunction of `looks_like_heading`, applied to
the normalized text, in source order. -/
def headingPatternsAny (nt : List Char) : Bool :=
  reNumCap nt || reNum2Cap nt || reNum3Cap nt || reNum4Cap nt ||
  reTitleCase nt || reAllCaps nt || reAppendix nt || rePhase nt ||
  reForEach nt || reNumDotCap nt

/-- The `common_heading_words` list of `looks_like_heading`. -/
def headingKeywords : List (List Char) :=
  ["summary".data, "background".data, "introduction".data, "conclusion".data,
   "abstract".data, "references".data, "methodology".data, "approach".data,
   "requirements".data, "evaluation".data, "timeline".data, "milestones".data,
   "appendix".data, "phase".data, "business".data, "plan".data]

/-- `any(w in normalized_text.lower() for w in common_heading_words)`. -/
def kwAny (lcs : List Char) : Bool := headingKeywords.any (fun w => hasSub w lcs)

/-- `looks_like_heading` in main.py (identical to `is_heading_candidate` in
main2.py): length and word-count filters, the non-heading rejection
patterns, then the additive score with threshold 4.  `avg` is the enclosing
`average_size`. -/
def looks_like_heading (avg : ℚ) (text : List Char) (size : ℚ) (flags : ℕ) : Bool :=
  let nt := cleanText text
  if nt.length < 2 || nt.length > 150 then false
  else if wordCount nt > 20 then false
  else if nonHeadingAny (lowerStr nt) then false
  else
    let isBold : Bool := (flags &&& 16) != 0
    let larger : Bool := decide (avg * 1.15 < size)
    let pat : Bool := headingPatternsAny nt
    let kw : Bool := kwAny (lowerStr nt)
    let colon : Bool := endsWithColon nt
    let score : ℕ :=
      (if isBold then 2 else 0) + (if pat then 3 else 0) +
      (if larger then 1 else 0) + (if kw then 2 else 0) +
      (if colon then 1 else 0) + (if decide (avg * 1.3 ≤ size) then 1 else 0)
    decide (4 ≤ score)

/-- `determine_heading_level` in main.py (identical to
`classify_heading_level` in main2.py): numbered-prefix patterns first, then
the special patterns, then the size fallback (rank among unique sizes when
at least 4 distinct sizes exist, absolute thresholds on the average
otherwise).  `uniq` and `avg` are the enclosing `unique_font_sizes` and
`average_size`; the `page_num` parameter is, as in the source, never
read. -/
def determine_heading_level (uniq : List ℚ) (avg : ℚ) (text : List Char) (size : ℚ)
    (_page : ℕ) : HLevel :=
  let ct := cleanText text
  if reNumCap ct then HLevel.H1
  else if reNum2Ws ct then HLevel.H2
  else if reNum3Ws ct then HLevel.H3
  else if reNum4Ws ct then HLevel.H4
  else if reAppendixColon ct then HLevel.H2
  else if rePhaseColon ct then HLevel.H3
  else if reForEach ct then HLevel.H4
  else if reNumDotCap ct then HLevel.H3
  else if 4 ≤ uniq.length then
    let rank := if size ∈ uniq then uniq.indexOf size else uniq.length - 1
    if rank = 0 then HLevel.H1
    else if rank = 1 then HLevel.H2
    else if rank = 2 then HLevel.H3
    else HLevel.H4
  else
    if avg * 1.4 ≤ size then HLevel.H1
    else if avg * 1.25 ≤ size then HLevel.H2
    else if avg * 1.1 ≤ size then HLevel.H3
    else HLevel.H4

/-- `possible_titles`: title candidates in document order, with cleaned
text. -/
def titleCands (es : List Fragment) : List TitleCand :=
  es.filterMap (fun e =>
    if could_be_title (maxSize es) e.text e.size e.page
    then some ⟨cleanText e.text, e.size, e.page⟩ else none)

/-- The title selection key `x["size"] * 1000 - x["page"]`. -/
def titleKey (c : TitleCand) : ℚ := c.size * 1000 - (c.page : ℚ)

/-- `doc_title`: `max(possible_titles, key=...)` when candidates exist,
else the default `"Untitled Document"`. -/
def docTitle (es : List Fragment) : List Char :=
  match titleCands es with
  | [] => "Untitled Document".data
  | c :: cs => (pyMaxBy titleKey c cs).text

/-- The heading-collection loop of main.py: walks the fragments carrying
`processed_texts` (`seen`), skipping duplicates and the title, and
appending a `potential_headings` entry for each fragment that passes
`looks_like_heading`. -/
def dedupLoop (avg : ℚ) (uniq : List ℚ) (title : List Char) :
    List Fragment → List (List Char) → List PotHeading
  | [], _ => []
  | e :: es, seen =>
    let tl := lowerStr (cleanText e.text)
    if tl ∈ seen ∨ tl = lowerStr title then dedupLoop avg uniq title es seen
    else if looks_like_heading avg e.text e.size e.flags then
      ⟨cleanText e.text, determine_heading_level uniq avg e.text e.size e.page,
        e.page, e.size⟩ :: dedupLoop avg uniq title es (tl :: seen)
    else dedupLoop avg uniq title es seen

/-- `potential_headings` after the collection loop. -/
def potentialHeadings (es : List Fragment) : List PotHeading :=
  dedupLoop (avgSize es) (uniqSizes es) (docTitle es) es []

/-- The comparator of `potential_headings.sort(key=lambda x: (x["page"],
-x["size"]))`: page ascending, size descending. -/
def ltHeadP (a b : PotHeading) : Prop :=
  a.page < b.page ∨ (a.page = b.page ∧ b.size < a.size)

instance (a b : PotHeading) : Decidable (ltHeadP a b) :=
  inferInstanceAs (Decidable (a.page < b.page ∨ (a.page = b.page ∧ b.size < a.size)))

/-- `potential_headings` after the sort. -/
def sortedHeads (es : List Fragment) : List PotHeading :=
  sortByLt (fun a b => decide (ltHeadP a b)) (potentialHeadings es)

/-- The final quality pass of main.py: at least 2 words, not pure digits,
not `page`/`figure`/`table` (case-insensitively), stripped length at least
3. -/
def qualityOk (t : List Char) : Bool :=
  decide (2 ≤ wordCount t) && !allDigits1 t &&
  !decide (lowerStr t ∈ ["page".data, "figure".data, "table".data]) &&
  decide (3 ≤ (stripWs t).length)

/-- `confirmed_headings` with the `size` field still attached (the source
loop reads the surviving entries and projects away `size`). -/
def confirmedFull (es : List Fragment) : List PotHeading :=
  (sortedHeads es).filter (fun h => qualityOk h.text)

/-- `analyze_document_structure` in src/main.py: returns
`(confirmed_headings, doc_title)`; empty input short-circuits to
`([], "No Title Found")`. -/
def analyze_document_structure (es : List Fragment) : List OutHeading × List Char :=
  match es with
  | [] => ([], "No Title Found".data)
  | _ :: _ =>
    ((confirmedFull es).map (fun h => ⟨h.level, h.text, h.page⟩), docTitle es)

example : cleanText "  1.   Introduction ".data = "1. Introduction".data := by decide
example : reNumCap "1. Introduction".data = true := by decide
example : reNumCap "1.1 Background".data = false := by decide
example : reNum2Ws "1.1 Background".data = true := by decide
example : reTitleCase "Executive Summary".data = true := by decide
example : reAllCaps "SUMMARY:".data = true := by decide
example : reAllCaps "TABLE OF CONTENTS".data = true := by decide
example : wordCount "1. Introduction".data = 2 := by decide


/-! ### main2.py — identify_structure

The analysis logic of `identify_structure` (src/main2.py) duplicates
`analyze_document_structure` (src/main.py) helper for helper; the embeddings
below are written out separately so that each definition can be compared
with its own source site.  Low-level pieces that are literally the same
regex or built-in in both files (the pattern matchers, `sortByLt`,
`pyMaxBy`) are shared.
-/

/-- `clean_heading_text` in main2.py: `re.sub(r'\s+', ' ', text.strip())`. -/
def clean_heading_text (cs : List Char) : List Char := collapseWs (stripWs cs) false

/-- `is_title_candidate` in main2.py. -/
def is_title_candidate (maxSz : ℚ) (text : List Char) (size : ℚ) (page : ℕ) : Bool :=
  if page > 2 then false
  else if size < maxSz * 0.9 then false
  else if wordCount text < 3 || wordCount text > 25 then false
  else if reNumDotWs text then false
  else if isPref "page".data (lowerStr text) || isPref "chapter".data (lowerStr text) then false
  else true

/-- `is_heading_candidate` in main2.py. -/
def is_heading_candidate (avg : ℚ) (text : List Char) (size : ℚ) (flags : ℕ) : Bool :=
  let nt := clean_heading_text text
  if nt.length < 2 || nt.length > 150 then false
  else if wordCount nt > 20 then false
  else if nonHeadingAny (lowerStr nt) then false
  else
    let isBold : Bool := (flags &&& 16) != 0
    let larger : Bool := decide (avg * 1.15 < size)
    let pat : Bool := headingPatternsAny nt
    let kw : Bool := kwAny (lowerStr nt)
    let colon : Bool := endsWithColon nt
    let score : ℕ :=
      (if isBold then 2 else 0) + (if pat then 3 else 0) +
      (if larger then 1 else 0) + (if kw then 2 else 0) +
      (if colon then 1 else 0) + (if decide (avg * 1.3 ≤ size) then 1 else 0)
    decide (4 ≤ score)

/-- `classify_heading_level` in main2.py (its `page` parameter is, as in
the source, never read). -/
def classify_heading_level (uniq : List ℚ) (avg : ℚ) (text : List Char) (size : ℚ)
    (_page : ℕ) : HLevel :=
  let ct := clean_heading_text text
  if reNumCap ct then HLevel.H1
  else if reNum2Ws ct then HLevel.H2
  else if reNum3Ws ct then HLevel.H3
  else if reNum4Ws ct then HLevel.H4
  else if reAppendixColon ct then HLevel.H2
  else if rePhaseColon ct then HLevel.H3
  else if reForEach ct then HLevel.H4
  else if reNumDotCap ct then HLevel.H3
  else if 4 ≤ uniq.length then
    let rank := if size ∈ uniq then uniq.indexOf size else uniq.length - 1
    if rank = 0 then HLevel.H1
    else if rank = 1 then HLevel.H2
    else if rank = 2 then HLevel.H3
    else HLevel.H4
  else
    if avg * 1.4 ≤ size then HLevel.H1
    else if avg * 1.25 ≤ size then HLevel.H2
    else if avg * 1.1 ≤ size then HLevel.H3
    else HLevel.H4

/-- `title_candidates` in main2.py. -/
def identTitleCands (es : List Fragment) : List TitleCand :=
  es.filterMap (fun e =>
    if is_title_candidate (maxSize es) e.text e.size e.page
    then some ⟨clean_heading_text e.text, e.size, e.page⟩ else none)

/-- The title selected by `identify_structure`
(`max(title_candidates, key=lambda x: (x["size"] * 1000 - x["page"]))`,
default `"Untitled Document"`). -/
def identTitle (es : List Fragment) : List Char :=
  match identTitleCands es with
  | [] => "Untitled Document".data
  | c :: cs => (pyMaxBy titleKey c cs).text

/-- The heading-collection loop of main2.py (`heading_candidates` with
`seen_texts`). -/
def identDedupLoop (avg : ℚ) (uniq : List ℚ) (title : List Char) :
    List Fragment → List (List Char) → List PotHeading
  | [], _ => []
  | e :: es, seen =>
    let tl := lowerStr (clean_heading_text e.text)
    if tl ∈ seen ∨ tl = lowerStr title then identDedupLoop avg uniq title es seen
    else if is_heading_candidate avg e.text e.size e.flags then
      ⟨clean_heading_text e.text, classify_heading_level uniq avg e.text e.size e.page,
        e.page, e.size⟩ :: identDedupLoop avg uniq title es (tl :: seen)
    else identDedupLoop avg uniq title es seen

/-- `identify_structure` in src/main2.py: same pipeline as
`analyze_document_structure`, but empty input returns
`([], "Untitled Document")`. -/
def identify_structure (es : List Fragment) : List OutHeading × List Char :=
  match es with
  | [] => ([], "Untitled Document".data)
  | _ :: _ =>
    let sorted := sortByLt (fun a b => decide (ltHeadP a b))
      (identDedupLoop (avgSize es) (uniqSizes es) (identTitle es) es [])
    ((sorted.filter (fun h => qualityOk h.text)).map
      (fun h => ⟨h.level, h.text, h.page⟩), identTitle es)

/-! ### Section ranking (Persona tabs of main.py and main2.py)

The ranking code is inline UI code, duplicated verbatim between
main.py (lines 362-388) and main2.py (lines 344-363); it is embedded once.
-/

/-- One per-page section as produced by `split_document_by_sections` /
`split_pdf_into_sections` (the fields the ranking reads). -/
structure PageSection where
  document : List Char
  start_page : ℕ
  section_title : List Char
  refined_text : List Char
deriving DecidableEq

/-- A ranked-output entry (dict with keys `document`, `start_page`,
`section_title`, `importance_rank`, `refined_text`). -/
structure RankedSec where
  document : List Char
  start_page : ℕ
  section_title : List Char
  importance_rank : ℕ
  refined_text : List Char
deriving DecidableEq

/-- `search_terms = set((task + " " + role).lower().split())`, as a
duplicate-free list. -/
def queryTerms (role task : List Char) : List (List Char) :=
  (wordsOf (lowerStr (task ++ (' ' :: role)))).dedup

/-- `set(title.lower().split())` for a section title, as a duplicate-free
list. -/
def titleWordSet (t : List Char) : List (List Char) :=
  (wordsOf (lowerStr t)).dedup

/-- `len(search_terms & set(title.lower().split()))`. -/
def matchScore (q : List (List Char)) (t : List Char) : ℕ :=
  ((titleWordSet t).filter (fun w => w ∈ q)).length

/-- The section-collection loop: keep the sections with nonzero match
count, projected to output records with `refined_text` cut to 1000
characters and a placeholder rank 0. -/
def matchingEntries (secs : List PageSection) (q : List (List Char)) : List RankedSec :=
  secs.filterMap (fun s =>
    if matchScore q s.section_title ≠ 0
    then some ⟨s.document, s.start_page, s.section_title, 0, s.refined_text.take 1000⟩
    else none)

/-- The comparator of the ranking sort
`key=lambda s: (-score(s), s["document"], s["start_page"])`:
match score descending, then document name ascending (Python string
comparison), then page ascending. -/
def ltRankP (q : List (List Char)) (a b : RankedSec) : Prop :=
  matchScore q b.section_title < matchScore q a.section_title ∨
  (matchScore q a.section_title = matchScore q b.section_title ∧
    (lexLt a.document b.document = true ∨
      (a.document = b.document ∧ a.start_page < b.start_page)))

instance (q : List (List Char)) (a b : RankedSec) : Decidable (ltRankP q a b) :=
  inferInstanceAs (Decidable (_ < _ ∨ (_ = _ ∧ (_ = true ∨ (_ = _ ∧ _ < _)))))

/-- The matching sections after the ranking sort. -/
def rankedSorted (secs : List PageSection) (q : List (List Char)) : List RankedSec :=
  sortByLt (fun a b => decide (ltRankP q a b)) (matchingEntries secs q)

/-- `for i, section in enumerate(top_sections, 1): section["importance_rank"] = i`. -/
def assignRanks : ℕ → List RankedSec → List RankedSec
  | _, [] => []
  | k, s :: ss => { s with importance_rank := k } :: assignRanks (k + 1) ss

/-- The whole ranking pipeline (`important_sections` / `relevant_sections`
followed by sort, truncation to 5 and rank assignment). -/
def rank_sections (secs : List PageSection) (role task : List Char) : List RankedSec :=
  assignRanks 1 ((rankedSorted secs (queryTerms role task)).take 5)

/-! ### Concrete inputs used by claim instances -/

/-- The three-fragment example of the specification: "Executive Summary"
(18pt, bold, page 1), "1. Introduction" (14pt, page 2), "1.1 Background"
(12pt, page 2).  Bold is style-flag bit 16. -/
def c2Frags : List Fragment :=
  [⟨"Executive Summary".data, 18, 16, 1⟩,
   ⟨"1. Introduction".data, 14, 0, 2⟩,
   ⟨"1.1 Background".data, 12, 0, 2⟩]

/-- Two title candidates whose font sizes differ by 1/2000 (less than the
1/1000 the selection key can trade against one page): the larger one on
page 2, the smaller on page 1. -/
def c3Frags : List Fragment :=
  [⟨"Alpha Beta Gamma".data, 10 + 1 / 2000, 0, 2⟩,
   ⟨"Delta Epsilon Zeta".data, 10, 0, 1⟩]

/-- Two fragments with the same normalized lowercased text, both passing
the heading filter ("Summary:" scores pattern 3 + keyword 2 + colon 1 = 6),
but with only one word, so the final quality pass discards the surviving
entry. -/
def c6Frags : List Fragment :=
  [⟨"Summary:".data, 12, 0, 1⟩, ⟨"SUMMARY:".data, 12, 0, 1⟩]

/-- The fragment that produces the heading entry with normalized
lowercased text `t`: same lowered cleaned text and passes the heading
filter. -/
def headingFindPred (avg : ℚ) (t : List Char) (f : Fragment) : Bool :=
  (lowerStr (cleanText f.text) == t) && looks_like_heading avg f.text f.size f.flags

/-! ### Generic lemmas about the embedded list primitives -/

theorem insertByLt_perm (lt : α → α → Bool) (x : α) (l : List α) :
    List.Perm (insertByLt lt x l) (x :: l) := by
  induction l with
  | nil => rfl
  | cons y ys ih =>
    by_cases h : lt y x = true
    · rw [insertByLt, if_pos h]
      exact (ih.cons y).trans (List.Perm.swap x y ys)
    · rw [insertByLt, if_neg h]

theorem sortByLt_perm (lt : α → α → Bool) (l : List α) : List.Perm (sortByLt lt l) l := by
  induction l with
  | nil => rfl
  | cons x xs ih => exact (insertByLt_perm lt x (sortByLt lt xs)).trans (ih.cons x)

theorem pairwise_insertByLt (lt : α → α → Bool)
    (hasym : ∀ a b, lt a b = true → lt b a = false)
    (htrans : ∀ a b c, lt b a = false → lt c b = false → lt c a = false)
    (x : α) (l : List α) (hl : List.Pairwise (fun a b => lt b a = false) l) :
    List.Pairwise (fun a b => lt b a = false) (insertByLt lt x l) := by
  induction l with
  | nil => simp [insertByLt]
  | cons y ys ih =>
    rcases List.pairwise_cons.mp hl with ⟨hy, hys⟩
    by_cases h : lt y x = true
    · rw [insertByLt, if_pos h]
      refine List.pairwise_cons.mpr ⟨?_, ih hys⟩
      intro z hz
      rcases List.mem_cons.mp ((insertByLt_perm lt x ys).mem_iff.mp hz) with rfl | hzys
      · exact hasym y z h
      · exact hy z hzys
    · rw [insertByLt, if_neg h]
      refine List.pairwise_cons.mpr ⟨?_, hl⟩
      intro z hz
      rcases List.mem_cons.mp hz with rfl | hzys
      · exact Bool.eq_false_iff.mpr h
      · exact htrans x y z (Bool.eq_false_iff.mpr h) (hy z hzys)

theorem pairwise_sortByLt (lt : α → α → Bool)
    (hasym : ∀ a b, lt a b = true → lt b a = false)
    (htrans : ∀ a b c, lt b a = false → lt c b = false → lt c a = false)
    (l : List α) :
    List.Pairwise (fun a b => lt b a = false) (sortByLt lt l) := by
  induction l with
  | nil => simp [sortByLt]
  | cons x xs ih => exact pairwise_insertByLt lt hasym htrans x (sortByLt lt xs) ih

theorem pyMaxBy_spec (key : α → ℚ) (best : α) (l : List α) :
    (pyMaxBy key best l = best ∨ pyMaxBy key best l ∈ l) ∧
    key best ≤ key (pyMaxBy key best l) ∧
    ∀ x ∈ l, key x ≤ key (pyMaxBy key best l) := by
  induction l generalizing best with
  | nil => simp [pyMaxBy]
  | cons y ys ih =>
    by_cases h : key best < key y
    · rw [pyMaxBy, if_pos h]
      obtain ⟨hmem, hself, hall⟩ := ih y
      refine ⟨?_, le_trans (le_of_lt h) hself, ?_⟩
      · rcases hmem with h1 | h1
        · exact Or.inr (by rw [h1]; exact List.mem_cons_self y ys)
        · exact Or.inr (List.mem_cons_of_mem y h1)
      · intro x hx
        rcases List.mem_cons.mp hx with rfl | hx'
        · exact hself
        · exact hall x hx'
    · rw [pyMaxBy, if_neg h]
      obtain ⟨hmem, hself, hall⟩ := ih best
      refine ⟨?_, hself, ?_⟩
      · rcases hmem with h1 | h1
        · exact Or.inl h1
        · exact Or.inr (List.mem_cons_of_mem y h1)
      · intro x hx
        rcases List.mem_cons.mp hx with rfl | hx'
        · exact le_trans (not_lt.mp h) hself
        · exact hall x hx'

theorem lexLt_cons_iff (x y : Char) (xs ys : List Char) :
    lexLt (x :: xs) (y :: ys) = true ↔ x < y ∨ (x = y ∧ lexLt xs ys = true) := by
  rw [lexLt]
  split_ifs with h1 h2
  · simp [h1]
  · simp [h1, h2]
  · simp [h1, h2]

theorem lexLt_irrefl : ∀ l : List Char, lexLt l l = false
  | [] => rfl
  | c :: cs => by
    rw [lexLt, if_neg (lt_irrefl c), if_pos rfl]
    exact lexLt_irrefl cs

theorem lexLt_trans : ∀ a b c : List Char,
    lexLt a b = true → lexLt b c = true → lexLt a c = true
  | [], [], _, h1, _ => by simp [lexLt] at h1
  | [], _ :: _, [], _, h2 => by simp [lexLt] at h2
  | [], _ :: _, _ :: _, _, _ => rfl
  | _ :: _, [], _, h1, _ => by simp [lexLt] at h1
  | _ :: _, _ :: _, [], _, h2 => by simp [lexLt] at h2
  | x :: xs, y :: ys, z :: zs, h1, h2 => by
    rcases (lexLt_cons_iff x y xs ys).mp h1 with hxy | ⟨rfl, hxy⟩ <;>
      rcases (lexLt_cons_iff _ z _ zs).mp h2 with hyz | ⟨rfl, hyz⟩
    · exact (lexLt_cons_iff x z xs zs).mpr (Or.inl (lt_trans hxy hyz))
    · exact (lexLt_cons_iff x _ xs zs).mpr (Or.inl hxy)
    · exact (lexLt_cons_iff _ z _ zs).mpr (Or.inl hyz)
    · exact (lexLt_cons_iff _ _ _ zs).mpr (Or.inr ⟨rfl, lexLt_trans _ _ _ hxy hyz⟩)

theorem lexLt_trichot : ∀ a b : List Char,
    lexLt a b = true ∨ lexLt b a = true ∨ a = b
  | [], [] => Or.inr (Or.inr rfl)
  | [], _ :: _ => Or.inl rfl
  | _ :: _, [] => Or.inr (Or.inl rfl)
  | x :: xs, y :: ys => by
    rcases lt_trichotomy x y with h | rfl | h
    · exact Or.inl ((lexLt_cons_iff x y xs ys).mpr (Or.inl h))
    · rcases lexLt_trichot xs ys with h' | h' | rfl
      · exact Or.inl ((lexLt_cons_iff x x xs ys).mpr (Or.inr ⟨rfl, h'⟩))
      · exact Or.inr (Or.inl ((lexLt_cons_iff x x ys xs).mpr (Or.inr ⟨rfl, h'⟩)))
      · exact Or.inr (Or.inr rfl)
    · exact Or.inr (Or.inl ((lexLt_cons_iff y x ys xs).mpr (Or.inl h)))

theorem lexLt_asymm (a b : List Char) (h : lexLt a b = true) : lexLt b a = false := by
  by_contra hc
  have hba : lexLt b a = true := by
    cases hx : lexLt b a
    · exact absurd hx hc
    · rfl
  have : lexLt a a = true := lexLt_trans a b a h hba
  rw [lexLt_irrefl a] at this
  exact Bool.false_ne_true this

theorem assignRanks_length (k : ℕ) (l : List RankedSec) :
    (assignRanks k l).length = l.length := by
  induction l generalizing k with
  | nil => rfl
  | cons s ss ih => simp [assignRanks, ih]

theorem assignRanks_get (k : ℕ) (l : List RankedSec) (i : ℕ)
    (h : i < (assignRanks k l).length) :
    ((assignRanks k l).get ⟨i, h⟩).importance_rank = k + i := by
  induction l generalizing k i with
  | nil => simp [assignRanks] at h
  | cons s ss ih =>
    cases i with
    | zero => rfl
    | succ j =>
      have h' : j < (assignRanks (k + 1) ss).length := by
        have hl := h
        rw [assignRanks_length] at hl
        rw [assignRanks_length]
        simp at hl
        omega
      have step : (assignRanks k (s :: ss)).get ⟨j + 1, h⟩ =
          (assignRanks (k + 1) ss).get ⟨j, h'⟩ := rfl
      rw [step, ih (k + 1) j h']
      omega

theorem assignRanks_mem (e : RankedSec) (k : ℕ) (l : List RankedSec)
    (h : e ∈ assignRanks k l) :
    ∃ e' ∈ l, e.section_title = e'.section_title := by
  induction l generalizing k with
  | nil => simp [assignRanks] at h
  | cons s ss ih =>
    rcases List.mem_cons.mp h with rfl | h'
    · exact ⟨s, List.mem_cons_self s ss, rfl⟩
    · obtain ⟨e', he', ht⟩ := ih (k + 1) h'
      exact ⟨e', List.mem_cons_of_mem s he', ht⟩

/-! ### Claim theorems -/

/-- C1 counterexample: on the empty fragment list,
`analyze_document_structure` (main.py) returns the title
`"No Title Found"`, not the claimed `"Untitled Document"`. -/
theorem c1_counterexample :
    analyze_document_structure [] = ([], "No Title Found".data) ∧
    "No Title Found".data ≠ "Untitled Document".data :=
  ⟨rfl, by decide⟩

/-- C1 (amended): for an empty fragment list both analyses return an empty
heading sequence and a default title and (being total Lean functions)
never fail; `identify_structure` (main2.py) defaults to
`"Untitled Document"` while `analyze_document_structure` (main.py)
defaults to `"No Title Found"`. -/
theorem c1_empty_input :
    analyze_document_structure [] = ([], "No Title Found".data) ∧
    identify_structure [] = ([], "Untitled Document".data) :=
  ⟨rfl, rfl⟩

/-- C2 counterexample: on the three-fragment example the outline is not the
claimed two-heading list — "Executive Summary" also qualifies as a heading
(bold 2 + Title-Case pattern 3 + larger-than-average 1 + keyword "summary"
2 = 8 ≥ 4) and is classified H3 by the size fallback. -/
theorem c2_counterexample :
    analyze_document_structure c2Frags ≠
      ([⟨HLevel.H1, "1. Introduction".data, 2⟩,
        ⟨HLevel.H2, "1.1 Background".data, 2⟩], "Untitled Document".data) := by
  decide

/-- C2 (amended): the three-fragment example yields the default title
`"Untitled Document"` ("Executive Summary" fails the 3-word minimum) and
exactly the three headings (H3 "Executive Summary" page 1,
H1 "1. Introduction" page 2, H2 "1.1 Background" page 2). -/
theorem c2_example :
    analyze_document_structure c2Frags =
      ([⟨HLevel.H3, "Executive Summary".data, 1⟩,
        ⟨HLevel.H1, "1. Introduction".data, 2⟩,
        ⟨HLevel.H2, "1.1 Background".data, 2⟩], "Untitled Document".data) := by
  decide

/-- C4: multi-level numbered prefixes decide the heading level by pattern
alone — "2.3 Something" is always H2 and "2.3.1 Something" always H3, for
every font size, page, and document font statistics, in both
`determine_heading_level` (main.py) and `classify_heading_level`
(main2.py). -/
theorem c4_pattern_levels :
    ∀ (uniq : List ℚ) (avg size : ℚ) (page : ℕ),
      determine_heading_level uniq avg "2.3 Something".data size page = HLevel.H2 ∧
      determine_heading_level uniq avg "2.3.1 Something".data size page = HLevel.H3 ∧
      classify_heading_level uniq avg "2.3 Something".data size page = HLevel.H2 ∧
      classify_heading_level uniq avg "2.3.1 Something".data size page = HLevel.H3 :=
  fun _ _ _ _ => ⟨rfl, rfl, rfl, rfl⟩

/-- C5 counterexample: the bare numbered item "3. Overview" is assigned H1
by `determine_heading_level`, not the claimed H3 — the H1 pattern
`^\d+\.?\s+[A-Z]` (optional dot) matches it before the bare-number rule
`^\d+\.\s+[A-Z]` is reached. -/
theorem c5_counterexample :
    determine_heading_level [] 0 "3. Overview".data 0 1 = HLevel.H1 ∧
    HLevel.H1 ≠ HLevel.H3 :=
  ⟨rfl, by decide⟩

/-- Any text matched by the mandatory-dot pattern `^\d+\.\s+[A-Z]` is also
matched by the optional-dot pattern `^\d+\.?\s+[A-Z]`. -/
theorem reNumCap_of_reNumDotCap (cs : List Char) (h : reNumDotCap cs = true) :
    reNumCap cs = true := by
  unfold reNumDotCap at h
  unfold reNumCap
  cases hd : pDigits1 cs with
  | none =>
    rw [hd] at h
    change false = true at h
    exact absurd h (by decide)
  | some r =>
    rw [hd] at h
    cases r with
    | nil =>
      change false = true at h
      exact absurd h (by decide)
    | cons c r2 =>
      change (c == '.' && wsThenCap r2) = true at h
      rw [Bool.and_eq_true] at h
      obtain ⟨hc, hw⟩ := h
      have hc' : c = '.' := by simpa using hc
      subst hc'
      change wsThenCap (pOptDot ('.' :: r2)) = true
      have hop : pOptDot ('.' :: r2) = r2 := by simp [pOptDot]
      rw [hop]
      exact hw

/-- C5 (amended): a qualifying heading text matching `^\d+\.\s+[A-Z]`
(e.g. "3. Overview") is assigned level H1 by `determine_heading_level`:
the earlier H1 rule subsumes the pattern, so the dedicated `→ H3` branch
is unreachable. -/
theorem c5_bare_number_level (uniq : List ℚ) (avg size : ℚ) (page : ℕ)
    (text : List Char) (h : reNumDotCap (cleanText text) = true) :
    determine_heading_level uniq avg text size page = HLevel.H1 := by
  unfold determine_heading_level
  simp [reNumCap_of_reNumDotCap (cleanText text) h]

/-- C5 witness: instantiating the amended claim at "3. Overview". -/
theorem c5_witness :
    reNumDotCap (cleanText "3. Overview".data) = true ∧
    determine_heading_level [7, 5, 3, 2] 4 "3. Overview".data 9 2 = HLevel.H1 :=
  ⟨by decide, c5_bare_number_level [7, 5, 3, 2] 4 9 2 "3. Overview".data (by decide)⟩

/-- C10: on every non-empty fragment list, `analyze_document_structure`
(main.py) and `identify_structure` (main2.py) return identical results;
the two source functions duplicate the same analysis logic and differ only
in the title returned for empty input. -/
theorem clean_heading_text_eq : clean_heading_text = cleanText := rfl

theorem is_title_candidate_eq : is_title_candidate = could_be_title := rfl

theorem is_heading_candidate_eq : is_heading_candidate = looks_like_heading := rfl

theorem classify_heading_level_eq : classify_heading_level = determine_heading_level := rfl

theorem identTitle_eq : identTitle = docTitle := rfl

theorem identDedupLoop_eq (avg : ℚ) (uniq : List ℚ) (title : List Char)
    (es : List Fragment) (seen : List (List Char)) :
    identDedupLoop avg uniq title es seen = dedupLoop avg uniq title es seen := by
  induction es generalizing seen with
  | nil => rfl
  | cons e es ih =>
    simp only [identDedupLoop, dedupLoop, clean_heading_text_eq,
      is_heading_candidate_eq, classify_heading_level_eq, ih]

theorem c10_equivalence (es : List Fragment) (h : es ≠ []) :
    analyze_document_structure es = identify_structure es := by
  cases es with
  | nil => exact absurd rfl h
  | cons e es' =>
    simp only [analyze_document_structure, identify_structure, confirmedFull,
      sortedHeads, potentialHeadings, identTitle_eq, identDedupLoop_eq]

/-- C10 witness: the two pipelines agree on a concrete one-fragment
document. -/
theorem c10_witness :
    analyze_document_structure [⟨"Executive Summary".data, 18, 16, 1⟩] =
      identify_structure [⟨"Executive Summary".data, 18, 16, 1⟩] :=
  c10_equivalence [⟨"Executive Summary".data, 18, 16, 1⟩] (by decide)

/-- C3 counterexample: with candidate sizes 10.0005 (page 2) and 10
(page 1), both title candidates, the key `size * 1000 - page` selects the
strictly smaller candidate on the earlier page, so the selected title is
not the candidate with the largest font size. -/
theorem c3_counterexample :
    titleCands c3Frags =
      [⟨"Alpha Beta Gamma".data, 10 + 1 / 2000, 2⟩,
       ⟨"Delta Epsilon Zeta".data, 10, 1⟩] ∧
    (analyze_document_structure c3Frags).2 = "Delta Epsilon Zeta".data ∧
    (10 : ℚ) < 10 + 1 / 2000 :=
  ⟨by decide, by decide, by decide⟩

/-- C3 (amended): when every pair of title candidates has equal font sizes
or font sizes separated by more than 1/1000 (and pages are 1 or 2, as the
candidate filter guarantees for 1-based pages), the candidate selected by
maximizing `size * 1000 - page` has the largest font size, with ties broken
toward the earliest page. -/
theorem c3_title_selection (c : TitleCand) (cs : List TitleCand)
    (hpage : ∀ x ∈ c :: cs, 1 ≤ x.page ∧ x.page ≤ 2)
    (hsep : ∀ x ∈ c :: cs, ∀ y ∈ c :: cs,
      x.size = y.size ∨ 1 / 1000 < |x.size - y.size|) :
    ∀ x ∈ c :: cs, x.size < (pyMaxBy titleKey c cs).size ∨
      (x.size = (pyMaxBy titleKey c cs).size ∧
        (pyMaxBy titleKey c cs).page ≤ x.page) := by
  intro x hx
  obtain ⟨hmem, hself, hall⟩ := pyMaxBy_spec titleKey c cs
  have hbmem : pyMaxBy titleKey c cs ∈ c :: cs := by
    rcases hmem with h1 | h1
    · rw [h1]; exact List.mem_cons_self c cs
    · exact List.mem_cons_of_mem c h1
  have hkey : titleKey x ≤ titleKey (pyMaxBy titleKey c cs) := by
    rcases List.mem_cons.mp hx with rfl | hx'
    · exact hself
    · exact hall x hx'
  have hpagekey : ∀ z : TitleCand, z ∈ c :: cs →
      (1 : ℚ) ≤ (z.page : ℚ) ∧ ((z.page : ℕ) : ℚ) ≤ 2 := by
    intro z hz
    constructor
    · exact_mod_cast (hpage z hz).1
    · exact_mod_cast (hpage z hz).2
  have hkey' : x.size * 1000 - (x.page : ℚ) ≤
      (pyMaxBy titleKey c cs).size * 1000 - ((pyMaxBy titleKey c cs).page : ℚ) := hkey
  rcases lt_trichotomy x.size (pyMaxBy titleKey c cs).size with hlt | heq | hgt
  · exact Or.inl hlt
  · refine Or.inr ⟨heq, ?_⟩
    rw [heq] at hkey'
    have : ((pyMaxBy titleKey c cs).page : ℚ) ≤ ((x.page : ℕ) : ℚ) := by linarith
    exact_mod_cast this
  · exfalso
    rcases hsep x hx (pyMaxBy titleKey c cs) hbmem with heq2 | habs
    · exact absurd heq2 (ne_of_gt hgt)
    · rw [abs_of_pos (by linarith : (0 : ℚ) < x.size - (pyMaxBy titleKey c cs).size)]
        at habs
      obtain ⟨hx1, hx2⟩ := hpagekey x hx
      obtain ⟨hb1, hb2⟩ := hpagekey _ hbmem
      linarith

/-- C3 witness: the amended claim instantiated at candidates of sizes 12
(page 1) and 10 (page 2). -/
theorem c3_witness :
    (1 / 1000 : ℚ) < |(12 : ℚ) - 10| ∧
    ((⟨"P Q R".data, 10, 2⟩ : TitleCand).size <
        (pyMaxBy titleKey (⟨"X Y Z".data, 12, 1⟩ : TitleCand)
          [⟨"P Q R".data, 10, 2⟩]).size ∨
      ((⟨"P Q R".data, 10, 2⟩ : TitleCand).size =
          (pyMaxBy titleKey (⟨"X Y Z".data, 12, 1⟩ : TitleCand)
            [⟨"P Q R".data, 10, 2⟩]).size ∧
        (pyMaxBy titleKey (⟨"X Y Z".data, 12, 1⟩ : TitleCand)
            [⟨"P Q R".data, 10, 2⟩]).page ≤
          (⟨"P Q R".data, 10, 2⟩ : TitleCand).page)) :=
  ⟨by decide, c3_title_selection ⟨"X Y Z".data, 12, 1⟩ [⟨"P Q R".data, 10, 2⟩]
    (by decide) (by decide) ⟨"P Q R".data, 10, 2⟩ (by decide)⟩

/-- Every heading produced by the collection loop has a text that was not
yet in `processed_texts` and differs from the (lowercased) title. -/
theorem dedupLoop_not_seen (avg : ℚ) (uniq : List ℚ) (title : List Char) :
    ∀ (es : List Fragment) (seen : List (List Char)) (h : PotHeading),
      h ∈ dedupLoop avg uniq title es seen →
      lowerStr h.text ∉ seen ∧ lowerStr h.text ≠ lowerStr title := by
  intro es
  induction es with
  | nil =>
    intro seen h hh
    simp [dedupLoop] at hh
  | cons e es ih =>
    intro seen h hh
    simp only [dedupLoop] at hh
    by_cases hskip : lowerStr (cleanText e.text) ∈ seen ∨
        lowerStr (cleanText e.text) = lowerStr title
    · rw [if_pos hskip] at hh
      exact ih seen h hh
    · rw [if_neg hskip] at hh
      by_cases hpass : looks_like_heading avg e.text e.size e.flags = true
      · rw [if_pos hpass] at hh
        rcases List.mem_cons.mp hh with rfl | hh'
        · exact ⟨fun hmem => hskip (Or.inl hmem), fun heq => hskip (Or.inr heq)⟩
        · have hr := ih _ h hh'
          exact ⟨fun hmem => hr.1 (List.mem_cons_of_mem _ hmem), hr.2⟩
      · rw [if_neg hpass] at hh
        exact ih seen h hh

/-- Every heading produced by the collection loop is built from the first
fragment (in document order) whose normalized lowercased text matches it
and which passes the heading filter. -/
theorem dedupLoop_find (avg : ℚ) (uniq : List ℚ) (title : List Char) :
    ∀ (es : List Fragment) (seen : List (List Char)) (h : PotHeading),
      h ∈ dedupLoop avg uniq title es seen →
      ∃ f, es.find? (headingFindPred avg (lowerStr h.text)) = some f ∧
        h.text = cleanText f.text ∧ h.page = f.page ∧ h.size = f.size := by
  intro es
  induction es with
  | nil =>
    intro seen h hh
    simp [dedupLoop] at hh
  | cons e es ih =>
    intro seen h hh
    simp only [dedupLoop] at hh
    by_cases hskip : lowerStr (cleanText e.text) ∈ seen ∨
        lowerStr (cleanText e.text) = lowerStr title
    · rw [if_pos hskip] at hh
      have hne := dedupLoop_not_seen avg uniq title es seen h hh
      obtain ⟨f, hf, hrest⟩ := ih seen h hh
      refine ⟨f, ?_, hrest⟩
      have hnp : ¬ headingFindPred avg (lowerStr h.text) e = true := by
        unfold headingFindPred
        rw [Bool.and_eq_true]
        rintro ⟨hbeq, -⟩
        have heq : lowerStr (cleanText e.text) = lowerStr h.text := by
          simpa using hbeq
        rcases hskip with hs | hs
        · exact hne.1 (heq ▸ hs)
        · exact hne.2 (heq ▸ hs)
      rw [List.find?_cons_of_neg es hnp]
      exact hf
    · rw [if_neg hskip] at hh
      by_cases hpass : looks_like_heading avg e.text e.size e.flags = true
      · rw [if_pos hpass] at hh
        rcases List.mem_cons.mp hh with rfl | hh'
        · refine ⟨e, ?_, rfl, rfl, rfl⟩
          have hp : headingFindPred avg
              (lowerStr (cleanText e.text)) e = true := by
            unfold headingFindPred
            rw [Bool.and_eq_true]
            exact ⟨by simp, hpass⟩
          rw [List.find?_cons_of_pos es hp]
        · have hne := dedupLoop_not_seen avg uniq title es _ h hh'
          obtain ⟨f, hf, hrest⟩ := ih _ h hh'
          refine ⟨f, ?_, hrest⟩
          have hnp : ¬ headingFindPred avg (lowerStr h.text) e = true := by
            unfold headingFindPred
            rw [Bool.and_eq_true]
            rintro ⟨hbeq, -⟩
            have heq : lowerStr (cleanText e.text) = lowerStr h.text := by
              simpa using hbeq
            exact hne.1 (by rw [← heq]; exact List.mem_cons_self _ _)
          rw [List.find?_cons_of_neg es hnp]
          exact hf
      · rw [if_neg hpass] at hh
        have hne := dedupLoop_not_seen avg uniq title es seen h hh
        obtain ⟨f, hf, hrest⟩ := ih seen h hh
        refine ⟨f, ?_, hrest⟩
        have hnp : ¬ headingFindPred avg (lowerStr h.text) e = true := by
          unfold headingFindPred
          rw [Bool.and_eq_true]
          rintro ⟨-, hp⟩
          exact hpass hp
        rw [List.find?_cons_of_neg es hnp]
        exact hf

/-- The collection loop never emits two headings with the same lowercased
normalized text. -/
theorem dedupLoop_pairwise (avg : ℚ) (uniq : List ℚ) (title : List Char) :
    ∀ (es : List Fragment) (seen : List (List Char)),
      List.Pairwise (fun a b : PotHeading => lowerStr a.text ≠ lowerStr b.text)
        (dedupLoop avg uniq title es seen) := by
  intro es
  induction es with
  | nil => intro seen; simp [dedupLoop]
  | cons e es ih =>
    intro seen
    simp only [dedupLoop]
    by_cases hskip : lowerStr (cleanText e.text) ∈ seen ∨
        lowerStr (cleanText e.text) = lowerStr title
    · rw [if_pos hskip]; exact ih seen
    · rw [if_neg hskip]
      by_cases hpass : looks_like_heading avg e.text e.size e.flags = true
      · rw [if_pos hpass]
        refine List.pairwise_cons.mpr ⟨?_, ih _⟩
        intro h' hh' heq
        have := (dedupLoop_not_seen avg uniq title es _ h' hh').1
        exact this (by rw [← heq]; exact List.mem_cons_self _ _)
      · rw [if_neg hpass]; exact ih seen

/-- The outline component of `analyze_document_structure`, for every input:
the final quality filter and projection applied to the sorted headings. -/
theorem analyze_fst (es : List Fragment) :
    (analyze_document_structure es).1 =
      (confirmedFull es).map (fun h => ⟨h.level, h.text, h.page⟩) := by
  cases es <;> rfl

/-- C6 (amended): headings are deduplicated by normalized-lowercased text
with the first occurrence winning — the returned outline never contains two
headings with the same lowercased text (so for two same-text fragments that
both pass the filter, at most one heading appears; the final quality pass
may still discard it), and every collected heading entry carries the page,
font size, and cleaned text of the first fragment in document order whose
normalized lowercased text matches it and which passes the heading
filter. -/
theorem c6_deduplication (es : List Fragment) :
    List.Pairwise (fun a b : OutHeading => lowerStr a.text ≠ lowerStr b.text)
      (analyze_document_structure es).1 ∧
    ∀ h ∈ potentialHeadings es,
      ∃ f, es.find? (headingFindPred (avgSize es) (lowerStr h.text)) = some f ∧
        h.text = cleanText f.text ∧ h.page = f.page ∧ h.size = f.size := by
  constructor
  · rw [analyze_fst]
    have hp : List.Pairwise (fun a b : PotHeading =>
        lowerStr a.text ≠ lowerStr b.text) (sortedHeads es) :=
      ((sortByLt_perm _ (potentialHeadings es)).pairwise_iff
        (fun hab he => hab he.symm)).mpr (dedupLoop_pairwise _ _ _ es [])
    have hf : List.Pairwise (fun a b : PotHeading =>
        lowerStr a.text ≠ lowerStr b.text) (confirmedFull es) :=
      List.Pairwise.sublist (List.filter_sublist _) hp
    exact List.pairwise_map.mpr hf
  · intro h hh
    exact dedupLoop_find (avgSize es) (uniqSizes es) (docTitle es) es [] h hh

/-- C6 counterexample: two fragments "Summary:"/"SUMMARY:" share the same
lowered normalized text and both pass the heading filter, yet the final
outline contains no heading at all for that text (the single surviving
entry has one word and is dropped by the quality pass) — not "exactly
one". -/
theorem c6_counterexample :
    looks_like_heading (avgSize c6Frags) "Summary:".data 12 0 = true ∧
    looks_like_heading (avgSize c6Frags) "SUMMARY:".data 12 0 = true ∧
    analyze_document_structure c6Frags = ([], "Untitled Document".data) :=
  ⟨by decide, by decide, by decide⟩

/-- C6 witness: the first-occurrence property instantiated on a concrete
one-fragment document. -/
theorem c6_witness :
    ∃ f, [(⟨"Executive Summary".data, 18, 16, 1⟩ : Fragment)].find?
        (headingFindPred (avgSize [⟨"Executive Summary".data, 18, 16, 1⟩])
          (lowerStr "Executive Summary".data)) = some f ∧
      "Executive Summary".data = cleanText f.text ∧ 1 = f.page ∧ (18 : ℚ) = f.size :=
  (c6_deduplication [⟨"Executive Summary".data, 18, 16, 1⟩]).2
    ⟨"Executive Summary".data, HLevel.H4, 1, 18⟩ (by decide)

/-- The heading sort comparator is asymmetric. -/
theorem ltHead_asym (a b : PotHeading) (h : decide (ltHeadP a b) = true) :
    decide (ltHeadP b a) = false := by
  rw [decide_eq_true_eq] at h
  rw [decide_eq_false_iff_not]
  unfold ltHeadP at h ⊢
  rintro (hc | ⟨hce, hcs⟩) <;> rcases h with h | ⟨he, hs⟩
  · omega
  · omega
  · omega
  · exact absurd hcs (lt_asymm hs)

/-- The negation of the heading sort comparator is transitive. -/
theorem ltHead_negtrans (a b c : PotHeading)
    (h1 : decide (ltHeadP b a) = false) (h2 : decide (ltHeadP c b) = false) :
    decide (ltHeadP c a) = false := by
  rw [decide_eq_false_iff_not] at h1 h2
  rw [decide_eq_false_iff_not]
  unfold ltHeadP at h1 h2 ⊢
  obtain ⟨h1a, h1b⟩ := not_or.mp h1
  obtain ⟨h2a, h2b⟩ := not_or.mp h2
  rintro (hc | ⟨hce, hcs⟩)
  · omega
  · have hba : b.page = a.page := by omega
    have hcb : c.page = b.page := by omega
    have hs1 : ¬ a.size < b.size := fun hs => h1b ⟨hba, hs⟩
    have hs2 : ¬ b.size < c.size := fun hs => h2b ⟨hcb, hs⟩
    have := not_lt.mp hs1
    have := not_lt.mp hs2
    linarith

/-- A pair respecting the sorted order of the heading sort: page ascending,
then size descending. -/
theorem leHead_of_not_lt (a b : PotHeading) (h : decide (ltHeadP b a) = false) :
    a.page < b.page ∨ (a.page = b.page ∧ b.size ≤ a.size) := by
  rw [decide_eq_false_iff_not] at h
  unfold ltHeadP at h
  obtain ⟨h1, h2⟩ := not_or.mp h
  rcases Nat.lt_or_ge a.page b.page with hp | hp
  · exact Or.inl hp
  · have hpe : a.page = b.page := by omega
    refine Or.inr ⟨hpe, ?_⟩
    have : ¬ a.size < b.size := fun hs => h2 ⟨hpe.symm, hs⟩
    exact not_lt.mp this

/-- C7: the surviving headings (with their originating font sizes) are
sorted by page ascending then font size descending; the returned outline
is their projection; and every returned heading has at least 2 words, is
not pure digits, is not "page"/"figure"/"table", and has stripped length
at least 3. -/
theorem c7_output_invariants (es : List Fragment) :
    List.Pairwise (fun a b : PotHeading =>
      a.page < b.page ∨ (a.page = b.page ∧ b.size ≤ a.size)) (confirmedFull es) ∧
    (analyze_document_structure es).1 =
      (confirmedFull es).map (fun h => ⟨h.level, h.text, h.page⟩) ∧
    ∀ g ∈ (analyze_document_structure es).1,
      2 ≤ wordCount g.text ∧ allDigits1 g.text = false ∧
      lowerStr g.text ∉ ["page".data, "figure".data, "table".data] ∧
      3 ≤ (stripWs g.text).length := by
  refine ⟨?_, analyze_fst es, ?_⟩
  · have hs := pairwise_sortByLt (fun a b => decide (ltHeadP a b))
      ltHead_asym ltHead_negtrans (potentialHeadings es)
    have hf : List.Pairwise (fun a b : PotHeading => decide (ltHeadP b a) = false)
        (confirmedFull es) :=
      List.Pairwise.sublist (List.filter_sublist (sortedHeads es)) hs
    exact hf.imp (fun h => leHead_of_not_lt _ _ h)
  · intro g hg
    rw [analyze_fst] at hg
    obtain ⟨h, hh, rfl⟩ := List.mem_map.mp hg
    have hq := List.of_mem_filter hh
    unfold qualityOk at hq
    simp only [Bool.and_eq_true, decide_eq_true_eq, Bool.not_eq_true',
      decide_eq_false_iff_not] at hq
    exact ⟨hq.1.1.1, hq.1.1.2, hq.1.2, hq.2⟩

/-- C7 witness: the quality facts instantiated at the first heading of the
three-fragment example. -/
theorem c7_witness :
    2 ≤ wordCount "Executive Summary".data ∧
    allDigits1 "Executive Summary".data = false ∧
    lowerStr "Executive Summary".data ∉ ["page".data, "figure".data, "table".data] ∧
    3 ≤ (stripWs "Executive Summary".data).length :=
  (c7_output_invariants c2Frags).2.2 ⟨HLevel.H3, "Executive Summary".data, 1⟩
    (by decide)

/-- Every entry of the kept-sections list has a nonzero match score. -/
theorem matching_score_pos (secs : List PageSection) (q : List (List Char))
    (e : RankedSec) (he : e ∈ matchingEntries secs q) :
    matchScore q e.section_title ≠ 0 := by
  unfold matchingEntries at he
  obtain ⟨s, hs, hsome⟩ := List.mem_filterMap.mp he
  by_cases h : matchScore q s.section_title ≠ 0
  · rw [if_pos h] at hsome
    have := Option.some.inj hsome
    rw [← this]
    exact h
  · rw [if_neg h] at hsome
    exact absurd hsome (by simp)

/-- Every entry of the ranked output has a nonzero match score. -/
theorem rank_sections_score_pos (secs : List PageSection) (role task : List Char)
    (e : RankedSec) (he : e ∈ rank_sections secs role task) :
    matchScore (queryTerms role task) e.section_title ≠ 0 := by
  unfold rank_sections at he
  obtain ⟨e', he', htitle⟩ := assignRanks_mem e 1 _ he
  have he'' : e' ∈ rankedSorted secs (queryTerms role task) :=
    List.take_subset 5 _ he'
  unfold rankedSorted at he''
  have hmem : e' ∈ matchingEntries secs (queryTerms role task) :=
    (sortByLt_perm _ _).mem_iff.mp he''
  rw [htitle]
  exact matching_score_pos secs _ e' hmem

/-- C8: a section whose title snippet shares no token with the query set is
never present in the ranked output — no output entry can even carry its
title. -/
theorem c8_zero_score_excluded (secs : List PageSection) (role task : List Char)
    (s : PageSection) (hs : matchScore (queryTerms role task) s.section_title = 0) :
    ∀ e ∈ rank_sections secs role task, e.section_title ≠ s.section_title := by
  intro e he heq
  exact rank_sections_score_pos secs role task e he (by rw [heq]; exact hs)

/-- C8 witness: with query "apple pie" + "Chef", the zero-overlap section
"banana bread" can never be the returned entry. -/
theorem c8_witness :
    matchScore (queryTerms "Chef".data "apple pie".data) "banana bread".data = 0 ∧
    (⟨"a.pdf".data, 1, "apple pie recipe".data, 1, "text".data⟩ :
        RankedSec).section_title ≠ "banana bread".data :=
  ⟨by decide,
    c8_zero_score_excluded
      [⟨"a.pdf".data, 1, "apple pie recipe".data, "text".data⟩,
       ⟨"b.pdf".data, 1, "banana bread".data, "x".data⟩]
      "Chef".data "apple pie".data
      ⟨"b.pdf".data, 1, "banana bread".data, "x".data⟩ (by decide)
      ⟨"a.pdf".data, 1, "apple pie recipe".data, 1, "text".data⟩ (by decide)⟩

/-- The ranking comparator is asymmetric. -/
theorem ltRank_asym (q : List (List Char)) (a b : RankedSec)
    (h : decide (ltRankP q a b) = true) : decide (ltRankP q b a) = false := by
  rw [decide_eq_true_eq] at h
  rw [decide_eq_false_iff_not]
  unfold ltRankP at h ⊢
  rintro (hc | ⟨hce, hcin⟩) <;> rcases h with h | ⟨he, hin⟩
  · omega
  · omega
  · omega
  · rcases hin with hin | ⟨hde, hp⟩ <;> rcases hcin with hcin | ⟨hdce, hpc⟩
    · rw [lexLt_asymm _ _ hin] at hcin
      exact Bool.false_ne_true hcin
    · rw [hdce] at hin
      rw [lexLt_irrefl] at hin
      exact Bool.false_ne_true hin
    · rw [hde] at hcin
      rw [lexLt_irrefl] at hcin
      exact Bool.false_ne_true hcin
    · omega

/-- The negation of the ranking comparator is transitive. -/
theorem ltRank_negtrans (q : List (List Char)) (a b c : RankedSec)
    (h1 : decide (ltRankP q b a) = false) (h2 : decide (ltRankP q c b) = false) :
    decide (ltRankP q c a) = false := by
  rw [decide_eq_false_iff_not] at h1 h2
  rw [decide_eq_false_iff_not]
  unfold ltRankP at h1 h2 ⊢
  obtain ⟨h1s, h1r⟩ := not_or.mp h1
  obtain ⟨h2s, h2r⟩ := not_or.mp h2
  rintro (hc | ⟨hcs, hin⟩)
  · omega
  · have hba : matchScore q b.section_title = matchScore q a.section_title := by omega
    have hcb : matchScore q c.section_title = matchScore q b.section_title := by omega
    have hXba : ¬ (lexLt b.document a.document = true ∨
        (b.document = a.document ∧ b.start_page < a.start_page)) :=
      fun hx => h1r ⟨hba, hx⟩
    have hXcb : ¬ (lexLt c.document b.document = true ∨
        (c.document = b.document ∧ c.start_page < b.start_page)) :=
      fun hx => h2r ⟨hcb, hx⟩
    obtain ⟨hba1, hba2⟩ := not_or.mp hXba
    obtain ⟨hcb1, hcb2⟩ := not_or.mp hXcb
    have hba1' : lexLt b.document a.document = false := Bool.eq_false_iff.mpr hba1
    have hcb1' : lexLt c.document b.document = false := Bool.eq_false_iff.mpr hcb1
    rcases hin with hlex | ⟨hdca, hpca⟩
    · rcases lexLt_trichot a.document b.document with hab | hba' | hdeq
      · have ht := lexLt_trans _ _ _ hlex hab
        rw [hcb1'] at ht
        exact Bool.false_ne_true ht
      · rw [hba1'] at hba'
        exact Bool.false_ne_true hba'
      · rw [hdeq] at hlex
        rw [hcb1'] at hlex
        exact Bool.false_ne_true hlex
    · rcases lexLt_trichot a.document b.document with hab | hba' | hdeq
      · rw [← hdca] at hab
        rw [hcb1'] at hab
        exact Bool.false_ne_true hab
      · rw [hba1'] at hba'
        exact Bool.false_ne_true hba'
      · have hpb : ¬ b.start_page < a.start_page := fun hp => hba2 ⟨hdeq.symm, hp⟩
        have hpc : ¬ c.start_page < b.start_page := fun hp => hcb2 ⟨hdca.trans hdeq, hp⟩
        omega

/-- C9: the ranked output is the rank-assignment of the first five sorted
matching sections; its length is `min 5` of the number of matching
sections; the i-th output entry has `importance_rank` i+1; and every
section dropped by the truncation has a match score no higher than any
retained one. -/
theorem c9_truncation (secs : List PageSection) (role task : List Char) :
    rank_sections secs role task =
      assignRanks 1 ((rankedSorted secs (queryTerms role task)).take 5) ∧
    (rank_sections secs role task).length =
      min 5 (matchingEntries secs (queryTerms role task)).length ∧
    (∀ i (h : i < (rank_sections secs role task).length),
      ((rank_sections secs role task).get ⟨i, h⟩).importance_rank = i + 1) ∧
    ∀ d ∈ (rankedSorted secs (queryTerms role task)).drop 5,
      ∀ r ∈ (rankedSorted secs (queryTerms role task)).take 5,
        matchScore (queryTerms role task) d.section_title ≤
          matchScore (queryTerms role task) r.section_title := by
  refine ⟨rfl, ?_, ?_, ?_⟩
  · unfold rank_sections rankedSorted
    rw [assignRanks_length, List.length_take, (sortByLt_perm _ _).length_eq]
  · intro i h
    have hg := assignRanks_get 1
      ((rankedSorted secs (queryTerms role task)).take 5) i h
    exact hg.trans (Nat.add_comm 1 i)
  · intro d hd r hr
    have hs := pairwise_sortByLt
      (fun a b => decide (ltRankP (queryTerms role task) a b))
      (ltRank_asym (queryTerms role task)) (ltRank_negtrans (queryTerms role task))
      (matchingEntries secs (queryTerms role task))
    rw [← List.take_append_drop 5
      (sortByLt (fun a b => decide (ltRankP (queryTerms role task) a b))
        (matchingEntries secs (queryTerms role task)))] at hs
    obtain ⟨-, -, hcross⟩ := List.pairwise_append.mp hs
    have hrd := hcross r hr d hd
    rw [decide_eq_false_iff_not] at hrd
    unfold ltRankP at hrd
    obtain ⟨t1, -⟩ := not_or.mp hrd
    omega

/-- C9 witness: the truncation facts instantiated on a one-section
corpus. -/
theorem c9_witness :
    (rank_sections [⟨"a.pdf".data, 1, "apple pie recipe".data, "t".data⟩]
      "Chef".data "apple pie".data).length =
      min 5 (matchingEntries [⟨"a.pdf".data, 1, "apple pie recipe".data, "t".data⟩]
        (queryTerms "Chef".data "apple pie".data)).length ∧
    ((rank_sections [⟨"a.pdf".data, 1, "apple pie recipe".data, "t".data⟩]
      "Chef".data "apple pie".data).get ⟨0, by decide⟩).importance_rank = 0 + 1 :=
  ⟨(c9_truncation [⟨"a.pdf".data, 1, "apple pie recipe".data, "t".data⟩]
      "Chef".data "apple pie".data).2.1,
    (c9_truncation [⟨"a.pdf".data, 1, "apple pie recipe".data, "t".data⟩]
      "Chef".data "apple pie".data).2.2.1 0 (by decide)⟩
